import Mathlib

/-!
# Shallow embedding of `src/engine/src/searchthread.cpp`

Verification development for the CrazyAra MCTS search-worker subsystem
(`SearchThread`).  The C++ code is embedded shallowly:

* machine integers (`size_t`, `uint16_t`, `uint_fast32_t`) are modelled as
  `Nat`; signed quantities as `Int`;
* `float`/`double` node values and Q-values are modelled as exact rationals
  (`ℚ`); where a floating-point computation can produce `inf`/`NaN` whose
  conversion to an integer type is undefined behaviour, the embedding
  returns `none`;
* external collaborators (the `Node` tree primitives, `StateObj`,
  `NeuralNetAPI`) are not part of the translated source; their outputs are
  passed to the embedded functions as explicit arguments, exactly at the
  points where the C++ code calls them;
* the out-parameter / member-mutation style of the C++ code becomes
  explicit state passing on small record types.

The embedding follows the non-`SEARCH_UCT`, non-`MCTS_STORE_STATES` build
configuration (the default), which is the configuration the specification
describes.
-/

/-- Node solving states (enum `NodeType` of the tree library).  The code in
`searchthread.cpp` only ever compares against `UNSOLVED`; the remaining
constructors stand for all solved/tablebase states. -/
inductive NodeType where
  | UNSOLVED
  | SOLVED_WIN
  | SOLVED_LOSS
  | SOLVED_DRAW
  | TABLEBASE
deriving DecidableEq

/-- Result discriminant recorded in `NodeDescription::type` and returned by
`SearchThread::add_new_node_to_tree` (enum `NodeBackup`). -/
inductive NodeBackup where
  | NODE_NEW_NODE
  | NODE_TRANSPOSITION
  | NODE_TERMINAL
  | NODE_COLLISION
deriving DecidableEq

/-- `SearchSettings::searchPlayerMode` values. -/
inductive SearchPlayerMode where
  | MODE_SINGLE_PLAYER
  | MODE_TWO_PLAYER
deriving DecidableEq

/-- The statement lists executed by the `switch (searchSettings->searchPlayerMode)`
in the `SearchThread` constructor, with C++ fallthrough semantics: the
`MODE_SINGLE_PLAYER` case has no `break`, so it executes its own statement
`terminalNodeCache = 1;` and then falls through into the `MODE_TWO_PLAYER`
case, whose statement list is the single empty statement `;`. -/
def searchPlayerMode_switch_stmts : SearchPlayerMode → List (Nat → Nat)
  | .MODE_SINGLE_PLAYER => [fun _ => 1]
  | .MODE_TWO_PLAYER => []

/-- Value of `terminalNodeCache` after the `SearchThread` constructor: the
member initialiser sets it to `searchSettings->batchSize * 2`, then the
`switch` statement (with fallthrough) runs over it. -/
def SearchThread_terminalNodeCache (batchSize : Nat) (mode : SearchPlayerMode) : Nat :=
  (searchPlayerMode_switch_stmts mode).foldl (fun v f => f v) (batchSize * 2)

/-- Claim C7: after `SearchThread` construction, `terminalNodeCache` equals `1`
when `searchPlayerMode` is `MODE_SINGLE_PLAYER` and equals `2 * batchSize` when
it is `MODE_TWO_PLAYER`; the fallthrough from the single-player case (whose
target case body is empty) does not change the two-player result. -/
theorem SearchThread_terminalNodeCache_c7 (batchSize : Nat) :
    SearchThread_terminalNodeCache batchSize .MODE_SINGLE_PLAYER = 1 ∧
    SearchThread_terminalNodeCache batchSize .MODE_TWO_PLAYER = 2 * batchSize := by
  refine ⟨rfl, ?_⟩
  simp [SearchThread_terminalNodeCache, searchPlayerMode_switch_stmts, Nat.mul_comm]

/-- `SearchThread::get_avg_depth`:
`return size_t(double(depthSum) / (rootNode->get_visits() - visitsPreSearch) + 0.5);`

The `double` arithmetic is modelled exactly over `ℚ`; the conversion
`size_t(x)` of a non-negative finite value truncates, i.e. is
`Int.toNat ∘ Int.floor`.  Visit counts are monotone and `visitsPreSearch`
is a snapshot of `rootNode->get_visits()` taken in `set_root_node`, so the
unsigned subtraction is modelled on `Nat` for `visits ≥ visitsPreSearch`.
When the divisor `visits - visitsPreSearch` is `0`, the C++ double division
yields `inf` (or `NaN` for `depthSum = 0`) and the conversion to `size_t`
is undefined behaviour; the embedding returns `none` in that case. -/
def get_avg_depth (depthSum visits visitsPreSearch : Nat) : Option Nat :=
  if visits - visitsPreSearch = 0 then none
  else some (Int.toNat ⌊(depthSum : ℚ) / ((visits - visitsPreSearch : Nat) : ℚ) + 1/2⌋)

/-- Claim C9: whenever the root node's visit count exceeds `visitsPreSearch`,
`get_avg_depth` returns `depthSum / (visits - visitsPreSearch)` rounded to
the nearest integer with halves rounded up — equivalently, the integer
`(2 * depthSum + d) / (2 * d)` for `d = visits - visitsPreSearch`. -/
theorem get_avg_depth_c9 (depthSum visits visitsPreSearch : Nat)
    (h : visitsPreSearch < visits) :
    get_avg_depth depthSum visits visitsPreSearch =
      some ((2 * depthSum + (visits - visitsPreSearch)) / (2 * (visits - visitsPreSearch))) := by
  have hd : visits - visitsPreSearch ≠ 0 := Nat.sub_ne_zero_of_lt h
  set d : Nat := visits - visitsPreSearch with hdef
  have hd0 : (0:ℚ) < (d : ℚ) := by
    exact_mod_cast Nat.pos_of_ne_zero hd
  have hq : (depthSum : ℚ) / (d : ℚ) + 1/2 = ((2 * depthSum + d : Nat) : ℚ) / ((2 * d : Nat) : ℚ) := by
    push_cast
    field_simp
    ring
  have hfloor : (⌊(depthSum : ℚ) / (d : ℚ) + 1/2⌋).toNat = (2 * depthSum + d) / (2 * d) := by
    rw [Int.floor_toNat, hq, Nat.floor_div_eq_div]
  simp only [get_avg_depth, ← hdef, if_neg hd, hfloor]

/-- Witness for C9 at concrete inputs: `depthSum = 7`, `visits = 3`,
`visitsPreSearch = 0`; the rounded average is `⌊7/3 + 1/2⌋ = 2`. -/
theorem get_avg_depth_c9_witness :
    0 < 3 ∧ get_avg_depth 7 3 0 = some ((2 * 7 + (3 - 0)) / (2 * (3 - 0))) :=
  ⟨by decide, get_avg_depth_c9 7 3 0 (by decide)⟩

/-- Claim C10: `get_avg_depth` has no guard against a zero denominator.  When
the root's visit count equals `visitsPreSearch` the divisor is `0` and the
result is undefined (`none` in the embedding); under the precondition that at
least one visit has been added since `set_root_node`, the division-by-zero
branch is unreachable and the function is total. -/
theorem get_avg_depth_c10 (depthSum visits visitsPreSearch : Nat) :
    (visits = visitsPreSearch → get_avg_depth depthSum visits visitsPreSearch = none) ∧
    (visitsPreSearch < visits → (get_avg_depth depthSum visits visitsPreSearch).isSome = true) := by
  constructor
  · intro heq
    subst heq
    simp [get_avg_depth]
  · intro hlt
    have hd : visits - visitsPreSearch ≠ 0 := Nat.sub_ne_zero_of_lt hlt
    simp [get_avg_depth, hd]

/-- Witness for C10 at concrete inputs: with `visits = visitsPreSearch = 2`
the function is undefined; with one added visit it is defined. -/
theorem get_avg_depth_c10_witness :
    get_avg_depth 5 2 2 = none ∧ (get_avg_depth 5 3 2).isSome = true :=
  ⟨(get_avg_depth_c10 5 2 2).1 rfl, (get_avg_depth_c10 5 3 2).2 (by decide)⟩

/-- View of a child node as read by `random_playout` through
`Node::get_child_node(idx)`: only `is_playout_node()` and `get_node_type()`
are consulted. -/
structure PlayoutChildView where
  is_playout_node : Bool
  node_type : NodeType
deriving DecidableEq

/-- View of the current node as read by `random_playout`:
`is_fully_expanded()`, `get_number_child_nodes()`, `get_no_visit_idx()` and
the child table `get_child_node` (`none` models a `nullptr` child slot). -/
structure PlayoutNodeView where
  is_fully_expanded : Bool
  number_child_nodes : Nat
  no_visit_idx : Nat
  get_child_node : Nat → Option PlayoutChildView

/-- Free function `random_playout(Node* currentNode, ChildIdx& childIdx)`.
The out-parameter `childIdx` becomes the first component of the result;
the C++ sentinel `uint16_t(-1)` (fall through to normal UCB selection)
is modelled as `none`.  The second component is the node's `no_visit_idx`
after the call (`increment_no_visit_idx()` runs only in the
not-fully-expanded branch). -/
def random_playout (node : PlayoutNodeView) (r : Nat) : Option Nat × Nat :=
  if node.is_fully_expanded then
    let idx := r % node.number_child_nodes
    match node.get_child_node idx with
    | none => (some idx, node.no_visit_idx)
    | some c =>
      if c.is_playout_node = false then (some idx, node.no_visit_idx)
      else if c.node_type = NodeType.UNSOLVED then (some idx, node.no_visit_idx)
      else (none, node.no_visit_idx)
  else
    (some (min node.no_visit_idx (node.number_child_nodes - 1)), node.no_visit_idx + 1)

/-- Fully expanded node whose randomly picked child exists but is not a
playout node (`is_playout_node = false`, here with a solved node type). -/
def randomPlayoutCexNode : PlayoutNodeView :=
  { is_fully_expanded := true
    number_child_nodes := 1
    no_visit_idx := 1
    get_child_node := fun _ => some { is_playout_node := false, node_type := .SOLVED_WIN } }

/-- Counterexample to claim C5 as stated: on a fully expanded node whose
randomly picked child exists and is a non-playout node, the claim demands the
sentinel, but `random_playout` assigns `childIdx = idx` (the source returns
`idx` whenever the child is `nullptr` or not a playout node, before the
solved-state test). -/
theorem random_playout_c5_counterexample :
    ¬ (((random_playout randomPlayoutCexNode 0).1 = none) ↔
       (∃ c, randomPlayoutCexNode.get_child_node
              (0 % randomPlayoutCexNode.number_child_nodes) = some c ∧
          (c.node_type ≠ NodeType.UNSOLVED ∨ c.is_playout_node = false))) := by
  intro h
  have hc := h.mpr ⟨{ is_playout_node := false, node_type := .SOLVED_WIN }, rfl,
    Or.inl (by decide)⟩
  simp [random_playout, randomPlayoutCexNode] at hc

/-- Claim C5 amended: in random-playout mode, when the node is fully expanded
the examined child index is `idx = r % number_child_nodes` (uniform over all
children for a uniform `rand()` draw `r`); the sentinel is yielded if and only
if that child exists, is a playout node, and is solved
(`node_type ≠ UNSOLVED`); in every other case the picked index is `idx`
itself, and `no_visit_idx` is unchanged. -/
theorem random_playout_c5_amended (node : PlayoutNodeView) (r : Nat)
    (h : node.is_fully_expanded = true) :
    ((random_playout node r).1 = none ↔
      (∃ c, node.get_child_node (r % node.number_child_nodes) = some c ∧
        c.is_playout_node = true ∧ c.node_type ≠ NodeType.UNSOLVED)) ∧
    ((random_playout node r).1 ≠ none →
      (random_playout node r).1 = some (r % node.number_child_nodes)) ∧
    (random_playout node r).2 = node.no_visit_idx := by
  simp only [random_playout, h, if_true]
  cases hc : node.get_child_node (r % node.number_child_nodes) with
  | none => simp [hc]
  | some c =>
    cases hp : c.is_playout_node with
    | false => simp [hc, hp]
    | true =>
      by_cases hu : c.node_type = NodeType.UNSOLVED
      · simp [hc, hp, hu]
      · simp [hc, hp, hu]

/-- Witness for the amended C5 at a concrete input: `randomPlayoutCexNode`
is fully expanded, its child at index `0` exists but is not a playout node,
so the pick is `some 0` and `no_visit_idx` stays `1`. -/
theorem random_playout_c5_witness :
    ((random_playout randomPlayoutCexNode 0).1 ≠ none →
      (random_playout randomPlayoutCexNode 0).1 =
        some (0 % randomPlayoutCexNode.number_child_nodes)) ∧
    (random_playout randomPlayoutCexNode 0).2 = randomPlayoutCexNode.no_visit_idx :=
  ⟨(random_playout_c5_amended randomPlayoutCexNode 0 rfl).2.1,
   (random_playout_c5_amended randomPlayoutCexNode 0 rfl).2.2⟩

/-- View of the node probed by `SearchThread::select_enhanced_move`:
`is_playout_node()`, `was_inspected()`, `is_terminal()`, `get_no_visit_idx()`,
`get_number_child_nodes()` and the action table `get_action`. -/
structure EnhancedMoveNode where
  is_playout_node : Bool
  was_inspected : Bool
  is_terminal : Bool
  no_visit_idx : Nat
  number_child_nodes : Nat
  get_action : Nat → Nat

/-- The scan loop of `select_enhanced_move`:
`for (childIdx = no_visit_idx; childIdx < number_child_nodes; ++childIdx)`
returning the first index whose action gives check.  `i` is the loop
variable, the fuel argument is the number of remaining iterations
(`number_child_nodes - i` at the call site). -/
def scan_check (gives_check : Nat → Bool) (act : Nat → Nat) : Nat → Nat → Option Nat
  | _, 0 => none
  | i, fuel + 1 => if gives_check (act i) then some i else scan_check gives_check act (i + 1) fuel

/-- `SearchThread::select_enhanced_move(Node* currentNode)`.
The state replay (`rootState->clone()` followed by `do_action` over
`actionsBuffer`) is external `StateObj` behaviour; the resulting position's
`gives_check` predicate on actions is passed as an argument.  The returned
pair is (`childIdx` with the `uint16_t(-1)` sentinel modelled as `none`,
the node after its mutations).  On a hit at `childIdx`, the inner loop
`for (idx = no_visit_idx; idx < childIdx + 1; ++idx) increment_no_visit_idx()`
leaves `no_visit_idx` at `childIdx + 1`, modelled as
`no_visit_idx + (childIdx + 1 - no_visit_idx)`. -/
def select_enhanced_move (gives_check : Nat → Bool) (node : EnhancedMoveNode) :
    Option Nat × EnhancedMoveNode :=
  if node.is_playout_node = true ∧ node.was_inspected = false ∧ node.is_terminal = false then
    match scan_check gives_check node.get_action node.no_visit_idx
        (node.number_child_nodes - node.no_visit_idx) with
    | some childIdx =>
      (some childIdx, { node with no_visit_idx := node.no_visit_idx + (childIdx + 1 - node.no_visit_idx) })
    | none => (none, { node with was_inspected := true })
  else
    (none, node)

theorem scan_check_some (gives_check : Nat → Bool) (act : Nat → Nat) :
    ∀ fuel i c, scan_check gives_check act i fuel = some c →
      i ≤ c ∧ c < i + fuel ∧ gives_check (act c) = true ∧
      ∀ j, i ≤ j → j < c → gives_check (act j) = false := by
  intro fuel
  induction fuel with
  | zero => intro i c h; simp [scan_check] at h
  | succ n ih =>
    intro i c h
    by_cases hg : gives_check (act i) = true
    · simp [scan_check, hg] at h
      subst h
      exact ⟨Nat.le_refl _, by omega, hg, fun j h1 h2 => absurd (Nat.lt_of_le_of_lt h1 h2) (Nat.lt_irrefl _)⟩
    · simp [scan_check, hg] at h
      obtain ⟨h1, h2, h3, h4⟩ := ih (i + 1) c h
      refine ⟨by omega, by omega, h3, fun j hj1 hj2 => ?_⟩
      rcases Nat.eq_or_lt_of_le hj1 with heq | hlt
      · subst heq; exact Bool.not_eq_true _ ▸ (by simpa using hg)
      · exact h4 j hlt hj2

theorem scan_check_none (gives_check : Nat → Bool) (act : Nat → Nat) :
    ∀ fuel i, scan_check gives_check act i fuel = none →
      ∀ j, i ≤ j → j < i + fuel → gives_check (act j) = false := by
  intro fuel
  induction fuel with
  | zero => intro i _ j h1 h2; omega
  | succ n ih =>
    intro i h j h1 h2
    by_cases hg : gives_check (act i) = true
    · simp [scan_check, hg] at h
    · simp [scan_check, hg] at h
      rcases Nat.eq_or_lt_of_le h1 with heq | hlt
      · subst heq; exact Bool.not_eq_true _ ▸ (by simpa using hg)
      · exact ih (i + 1) h j hlt (by omega)

/-- Claim C6: on a node on which the check probe runs (a playout node, not
terminal, not yet inspected), `select_enhanced_move` scans children from
`no_visit_idx` onward in order; if some scanned child's action gives check it
returns the first such index `c`, advancing `no_visit_idx` to exactly `c + 1`
and touching nothing else; if no scanned child gives check it marks the node
`was_inspected` and returns the sentinel; and on a node already marked
`was_inspected` a later probe returns the sentinel immediately with the node
unchanged (no state replay). -/
theorem select_enhanced_move_c6 (gives_check : Nat → Bool) (node : EnhancedMoveNode)
    (h1 : node.is_playout_node = true) (h2 : node.was_inspected = false)
    (h3 : node.is_terminal = false) :
    (∀ c, (select_enhanced_move gives_check node).1 = some c →
      node.no_visit_idx ≤ c ∧ c < node.number_child_nodes ∧
      gives_check (node.get_action c) = true ∧
      (∀ j, node.no_visit_idx ≤ j → j < c → gives_check (node.get_action j) = false) ∧
      (select_enhanced_move gives_check node).2 = { node with no_visit_idx := c + 1 }) ∧
    ((select_enhanced_move gives_check node).1 = none →
      (∀ j, node.no_visit_idx ≤ j → j < node.number_child_nodes →
        gives_check (node.get_action j) = false) ∧
      (select_enhanced_move gives_check node).2 = { node with was_inspected := true }) ∧
    (∀ (gc : Nat → Bool) (m : EnhancedMoveNode), m.was_inspected = true →
      select_enhanced_move gc m = (none, m)) := by
  refine ⟨?_, ?_, ?_⟩
  · intro c hc
    simp only [select_enhanced_move, h1, h2, h3, and_self, if_true] at hc ⊢
    cases hs : scan_check gives_check node.get_action node.no_visit_idx
        (node.number_child_nodes - node.no_visit_idx) with
    | none => simp [hs] at hc
    | some c0 =>
      simp only [hs] at hc
      have hcc : c0 = c := by simpa using hc
      subst hcc
      obtain ⟨ha, hb, hg, hmin⟩ := scan_check_some gives_check node.get_action _ _ _ hs
      have hcn : c0 < node.number_child_nodes := by omega
      refine ⟨ha, hcn, hg, hmin, ?_⟩
      simp only [hs]
      have hadd : node.no_visit_idx + (c0 + 1 - node.no_visit_idx) = c0 + 1 := by omega
      rw [hadd]
  · intro hc
    simp only [select_enhanced_move, h1, h2, h3, and_self, if_true] at hc ⊢
    cases hs : scan_check gives_check node.get_action node.no_visit_idx
        (node.number_child_nodes - node.no_visit_idx) with
    | some c0 => simp [hs] at hc
    | none =>
      refine ⟨fun j hj1 hj2 => ?_, by simp [hs]⟩
      exact scan_check_none gives_check node.get_action _ _ hs j hj1 (by omega)
  · intro gc m hm
    simp [select_enhanced_move, hm]

/-- Concrete node for the C6 witness: playout, uninspected, non-terminal,
four children, actions are the indices themselves; scanning starts at `1`. -/
def enhancedMoveWitnessNode : EnhancedMoveNode :=
  { is_playout_node := true
    was_inspected := false
    is_terminal := false
    no_visit_idx := 1
    number_child_nodes := 4
    get_action := fun i => i }

/-- Witness for C6 at a concrete input: with `gives_check` true exactly on
action `2`, the probe returns child `2` and sets `no_visit_idx` to `3`. -/
theorem select_enhanced_move_c6_witness :
    (select_enhanced_move (fun a => a == 2) enhancedMoveWitnessNode).2 =
      { enhancedMoveWitnessNode with no_visit_idx := 2 + 1 } :=
  ((select_enhanced_move_c6 (fun a => a == 2) enhancedMoveWitnessNode rfl rfl rfl).1
    2 (by decide)).2.2.2.2

/-- Per-worker staging state: the members of `SearchThread` mutated during
`create_mini_batch` / `thread_iteration` (the spec's `BatchStaging`).
`FixedVector` members (`newNodes`, `newNodeSideToMove`, `transpositionValues`)
are lists whose `add_element` is append, whose `reset_idx` empties, and whose
`is_full()` is tested against the construction capacity at the use site
(`batchSize` for the first two, `2 * batchSize` for the third).  A staged
leaf `Node*` is represented by the node's value (`ℚ`); trajectories are
opaque `List Nat` tokens.  `inputPlaneWrites` logs the buffer offsets passed
to `get_state_planes` (`inputPlanes + newNodes->size() * nbNNInputValues`),
and `terminalBackups` logs the values passed to the immediate
`backup_value<true>` calls; both are observation records of calls into
external collaborators, not containers of the C++ class. -/
structure WorkerState where
  newNodes : List ℚ
  newNodeSideToMove : List Nat
  newTrajectories : List (List Nat)
  transpositionValues : List ℚ
  transpositionTrajectories : List (List Nat)
  collisionTrajectories : List (List Nat)
  phaseCountMap : List (Nat × Nat)
  inputPlaneWrites : List Nat
  terminalBackups : List ℚ
  depthSum : Nat
  depthMax : Nat
deriving DecidableEq

/-- The worker state with every container empty (as after construction or
after a completed backup pass). -/
def WorkerState.init : WorkerState :=
  { newNodes := []
    newNodeSideToMove := []
    newTrajectories := []
    transpositionValues := []
    transpositionTrajectories := []
    collisionTrajectories := []
    phaseCountMap := []
    inputPlaneWrites := []
    terminalBackups := []
    depthSum := 0
    depthMax := 0 }

/-- `phaseCountMap[currPhase]++` on the `std::map<GamePhase, uint>`:
increment the entry if the key is present, otherwise insert it with count 1.
(The association list keeps insertion order; `std::map` keeps key order —
no embedded claim depends on the iteration order.) -/
def phase_count_bump : List (Nat × Nat) → Nat → List (Nat × Nat)
  | [], p => [(p, 1)]
  | (q, n) :: rest, p =>
    if q = p then (q, n + 1) :: rest else (q, n) :: phase_count_bump rest p

/-- The `description.type == NODE_NEW_NODE` block of
`get_new_child_to_evaluate` (non-`SEARCH_UCT` build): write the new state's
input planes at offset `newNodes->size() * nets.front()->get_nb_input_values_total()`,
bump `phaseCountMap[currPhase]`, and `newNodeSideToMove->add_element(side_to_move)`.
The new state's phase and side-to-move come from the external `StateObj` and
are passed as arguments. -/
def prepare_new_node_for_nn (nbInputValues phase stm : Nat) (s : WorkerState) : WorkerState :=
  { s with
    inputPlaneWrites := s.inputPlaneWrites ++ [s.newNodes.length * nbInputValues]
    phaseCountMap := phase_count_bump s.phaseCountMap phase
    newNodeSideToMove := s.newNodeSideToMove ++ [stm] }

/-- View of a fetched non-null child (`nextNode`) as read by the selection
loop of `get_new_child_to_evaluate`: `is_terminal()`, `has_nn_results()`,
`is_transposition()`, the `is_transposition_return` predicate on the computed
transposition Q value, and `get_value()`. -/
structure FetchedChild where
  is_terminal : Bool
  has_nn_results : Bool
  is_transposition : Bool
  is_transposition_return : ℚ → Bool
  get_value : ℚ

/-- One pass of the selection `while` loop of `get_new_child_to_evaluate`
for the case where the fetched child (`nextNode`) is non-null: decide
whether the pass returns this child (with the recorded
`NodeDescription::type`, `some` in the first component) or descends into it
(`none`).  The externally computed inputs are
`transposVisits = currentNode->get_real_visits(childIdx)`,
`transposQValue = currentNode->get_transposition_q_value(searchSettings, childIdx, transposVisits)`
and the free function `get_transposition_backup_value`; the staged backup
value is appended to `transpositionValues` inside the pass. -/
def fetch_existing_child (get_transposition_backup_value : Nat → ℚ → ℚ → ℚ)
    (child : FetchedChild) (transposVisits : Nat) (transposQValue : ℚ)
    (s : WorkerState) : Option NodeBackup × WorkerState :=
  if child.is_terminal = true then
    (some .NODE_TERMINAL, s)
  else if child.has_nn_results = false then
    (some .NODE_COLLISION, s)
  else if child.is_transposition = true then
    if child.is_transposition_return transposQValue = true then
      (some .NODE_TRANSPOSITION,
        { s with transpositionValues := s.transpositionValues ++
            [get_transposition_backup_value transposVisits transposQValue child.get_value] })
    else (none, s)
  else (none, s)

/-- View of the node returned by the external attach primitive
`Node::add_new_node_to_tree` (the canonical node for the expanded child
slot): `is_terminal()` and `get_value()`.  After the attach,
`parentNode->get_child_node(childIdx)` is this node, so the staged
transposition Q value `parentNode->get_child_node(childIdx)->get_value()`
is its value. -/
structure AttachedNode where
  is_terminal : Bool
  get_value : ℚ

/-- `SearchThread::add_new_node_to_tree(newState, parentNode, childIdx, nodeBackup)`:
classify the freshly attached node and stage a transposition value when the
attach primitive reported a transposition hit.  The returned discriminant is
the out-parameter `nodeBackup`. -/
def add_new_node_to_tree (newNode : AttachedNode) (transposition : Bool)
    (s : WorkerState) : NodeBackup × WorkerState :=
  if newNode.is_terminal = true then
    (.NODE_TERMINAL, s)
  else if transposition = true then
    (.NODE_TRANSPOSITION,
      { s with transpositionValues := s.transpositionValues ++ [newNode.get_value] })
  else
    (.NODE_NEW_NODE, s)

/-- Outcome of one full `get_new_child_to_evaluate` pass, abstracting the
tree walk: the recorded `NodeDescription` (`type`, `depth`), the returned
node's value, the new leaf's game phase and side-to-move (read from the
replayed state when `type = NODE_NEW_NODE`), and the trajectory recorded in
`trajectoryBuffer`. -/
structure LeafResult where
  ty : NodeBackup
  depth : Nat
  value : ℚ
  phase : Nat
  stm : Nat
  traj : List Nat
deriving DecidableEq

/-- The container side effects `get_new_child_to_evaluate` performs before
returning: a new leaf is prepared for NN evaluation
(`prepare_new_node_for_nn`), a transposition pass stages its backup value in
`transpositionValues` (either in `fetch_existing_child` or in
`add_new_node_to_tree`); terminal and collision passes touch nothing. -/
def get_new_child_effects (nbInputValues : Nat) (r : LeafResult) (s : WorkerState) : WorkerState :=
  match r.ty with
  | .NODE_NEW_NODE => prepare_new_node_for_nn nbInputValues r.phase r.stm s
  | .NODE_TRANSPOSITION =>
    { s with transpositionValues := s.transpositionValues ++ [r.value] }
  | _ => s

/-- `depthSum += description.depth; depthMax = max(depthMax, description.depth);`
in the body of `create_mini_batch`. -/
def record_depth (r : LeafResult) (s : WorkerState) : WorkerState :=
  { s with depthSum := s.depthSum + r.depth, depthMax := max s.depthMax r.depth }

/-- The dispatch on `description.type` in the body of `create_mini_batch`:
a terminal leaf is backed up immediately (`backup_value<true>`, logged in
`terminalBackups`), a collision stores its trajectory, a transposition stores
its trajectory (value already staged), and a new node is appended to
`newNodes` with its trajectory in `newTrajectories`. -/
def dispatch_leaf (r : LeafResult) (s : WorkerState) : WorkerState :=
  match r.ty with
  | .NODE_TERMINAL => { s with terminalBackups := s.terminalBackups ++ [r.value] }
  | .NODE_COLLISION => { s with collisionTrajectories := s.collisionTrajectories ++ [r.traj] }
  | .NODE_TRANSPOSITION =>
    { s with transpositionTrajectories := s.transpositionTrajectories ++ [r.traj] }
  | .NODE_NEW_NODE =>
    { s with newNodes := s.newNodes ++ [r.value],
             newTrajectories := s.newTrajectories ++ [r.traj] }

/-- One iteration of the `create_mini_batch` assembly loop body: selection
side effects, depth accounting, dispatch. -/
def run_leaf (nbInputValues : Nat) (r : LeafResult) (s : WorkerState) : WorkerState :=
  dispatch_leaf r (record_depth r (get_new_child_effects nbInputValues r s))

/-- `++numTerminalNodes` happens exactly for terminal leaves. -/
def leaf_terminal_increment (r : LeafResult) : Nat :=
  if r.ty = .NODE_TERMINAL then 1 else 0

/-- The `while` guard of `create_mini_batch`:
`!newNodes->is_full() && collisionTrajectories.size() != batchSize &&
!transpositionValues->is_full() && numTerminalNodes < terminalNodeCache`,
with `is_full()` being size-equals-capacity (`batchSize` for `newNodes`,
`2 * batchSize` for `transpositionValues`). -/
def minibatch_guard (batchSize terminalNodeCache : Nat) (s : WorkerState)
    (numTerminalNodes : Nat) : Bool :=
  !(s.newNodes.length == batchSize) && !(s.collisionTrajectories.length == batchSize) &&
    !(s.transpositionValues.length == 2 * batchSize) &&
    decide (numTerminalNodes < terminalNodeCache)

/-- The assembly loop of `create_mini_batch` over a stream of selection
outcomes (`leaves` abstracts successive `get_new_child_to_evaluate` passes;
the list running out models the worker stopping, so the unconsumed suffix is
returned for inspection).  The `Nat` component is the local counter
`numTerminalNodes`. -/
def create_mini_batch_from (batchSize terminalNodeCache nbInputValues : Nat) :
    List LeafResult → WorkerState → Nat → WorkerState × Nat × List LeafResult
  | [], s, t => (s, t, [])
  | r :: rest, s, t =>
    if minibatch_guard batchSize terminalNodeCache s t then
      create_mini_batch_from batchSize terminalNodeCache nbInputValues rest
        (run_leaf nbInputValues r s) (t + leaf_terminal_increment r)
    else (s, t, r :: rest)

/-- `SearchThread::create_mini_batch()`: run the assembly loop with the
terminal counter starting at `0`. -/
def create_mini_batch (batchSize terminalNodeCache nbInputValues : Nat)
    (leaves : List LeafResult) (s : WorkerState) : WorkerState :=
  (create_mini_batch_from batchSize terminalNodeCache nbInputValues leaves s 0).1

/-- `SearchThread::backup_value_outputs()`: `backup_values(*newNodes, newTrajectories)`
(which ends with `reset_idx`/`clear`), `newNodeSideToMove->reset_idx()`, and
`backup_values(transpositionValues.get(), transpositionTrajectories)` (ditto).
The value propagation itself acts on the tree, outside this state. -/
def backup_value_outputs (s : WorkerState) : WorkerState :=
  { s with newNodes := [], newTrajectories := [], newNodeSideToMove := [],
           transpositionValues := [], transpositionTrajectories := [] }

/-- `SearchThread::backup_collisions()`: revert virtual loss along each
collision trajectory, then `collisionTrajectories.clear()`. -/
def backup_collisions (s : WorkerState) : WorkerState :=
  { s with collisionTrajectories := [] }

/-- `std::max_element` over the phase-count map with the comparator
`p1.second < p2.second`: the first element with the largest count
(`none` on an empty map, where the C++ iterator dereference would be
undefined). -/
def map_max_element : List (Nat × Nat) → Option (Nat × Nat)
  | [] => none
  | x :: xs => some (xs.foldl (fun best y => if best.2 < y.2 then y else best) x)

/-- `SearchThread::select_nn_index()`: with a single configured network,
return index `0` immediately — without clearing `phaseCountMap`.  Otherwise
read the majority phase, clear `phaseCountMap`, and map the phase through
`phaseToNetsIndex` (an external `std::unordered_map`, passed as a function).
The returned index is `none` exactly in the undefined-behaviour corner where
the map is empty and `std::max_element` returns the end iterator. -/
def select_nn_index (numNets : Nat) (phaseToNetsIndex : Nat → Nat)
    (s : WorkerState) : Option Nat × WorkerState :=
  if numNets = 1 then (some 0, s)
  else
    ((map_max_element s.phaseCountMap).map (fun pr => phaseToNetsIndex pr.1),
      { s with phaseCountMap := [] })

/-- `SearchThread::thread_iteration()` (non-`SEARCH_UCT` build):
`create_mini_batch()`; if `newNodes->size() != 0`, query
`nets[select_nn_index()]` and distribute the NN results (tree effects);
then `backup_value_outputs()` and `backup_collisions()`. -/
def thread_iteration (numNets : Nat) (phaseToNetsIndex : Nat → Nat)
    (batchSize terminalNodeCache nbInputValues : Nat)
    (leaves : List LeafResult) (s : WorkerState) : WorkerState :=
  let s1 := create_mini_batch batchSize terminalNodeCache nbInputValues leaves s
  let s2 := if s1.newNodes.length ≠ 0 then (select_nn_index numNets phaseToNetsIndex s1).2 else s1
  backup_collisions (backup_value_outputs s2)

/-- Claim C1: a selection pass that fetches an existing (non-null) child
decides the returned `NodeDescription` type in priority order — a terminal
child returns `NODE_TERMINAL`; otherwise a child without NN results returns
`NODE_COLLISION`; otherwise a child flagged as transposition whose
`is_transposition_return` accepts the computed transposition Q value stages
`get_transposition_backup_value(...)` in `transpositionValues` and returns
`NODE_TRANSPOSITION`; in every remaining case the walk descends into the
child (no return, state untouched). -/
theorem fetch_existing_child_c1 (btv : Nat → ℚ → ℚ → ℚ) (child : FetchedChild)
    (transposVisits : Nat) (transposQValue : ℚ) (s : WorkerState) :
    (child.is_terminal = true →
      fetch_existing_child btv child transposVisits transposQValue s =
        (some .NODE_TERMINAL, s)) ∧
    (child.is_terminal = false → child.has_nn_results = false →
      fetch_existing_child btv child transposVisits transposQValue s =
        (some .NODE_COLLISION, s)) ∧
    (child.is_terminal = false → child.has_nn_results = true →
      child.is_transposition = true → child.is_transposition_return transposQValue = true →
      fetch_existing_child btv child transposVisits transposQValue s =
        (some .NODE_TRANSPOSITION,
          { s with transpositionValues := s.transpositionValues ++
              [btv transposVisits transposQValue child.get_value] })) ∧
    (child.is_terminal = false → child.has_nn_results = true →
      (child.is_transposition = false ∨ child.is_transposition_return transposQValue = false) →
      fetch_existing_child btv child transposVisits transposQValue s = (none, s)) := by
  refine ⟨?_, ?_, ?_, ?_⟩
  · intro h1
    simp [fetch_existing_child, h1]
  · intro h1 h2
    simp [fetch_existing_child, h1, h2]
  · intro h1 h2 h3 h4
    simp [fetch_existing_child, h1, h2, h3, h4]
  · intro h1 h2 h3
    rcases h3 with h3 | h3
    · simp [fetch_existing_child, h1, h2, h3]
    · by_cases ht : child.is_transposition = true
      · simp [fetch_existing_child, h1, h2, ht, h3]
      · simp [fetch_existing_child, h1, h2, ht]

/-- A child that is an accepted transposition return (non-terminal, has NN
results, transposition flag set, predicate always accepting). -/
def fetchWitnessChild : FetchedChild :=
  { is_terminal := false
    has_nn_results := true
    is_transposition := true
    is_transposition_return := fun _ => true
    get_value := 1/2 }

/-- Witness for C1 at a concrete input: an accepted transposition child
returns `NODE_TRANSPOSITION` and stages the computed backup value. -/
theorem fetch_existing_child_c1_witness :
    fetch_existing_child (fun _ q v => (q + v) / 2) fetchWitnessChild 3 (1/4) WorkerState.init =
      (some .NODE_TRANSPOSITION,
        { WorkerState.init with transpositionValues :=
            WorkerState.init.transpositionValues ++ [(1/4 + 1/2) / 2] }) :=
  (fetch_existing_child_c1 (fun _ q v => (q + v) / 2) fetchWitnessChild 3 (1/4)
    WorkerState.init).2.2.1 rfl rfl rfl rfl

/-- Claim C3: expansion of a null child slot classifies in priority order —
a terminal attached node yields `NODE_TERMINAL` and stages nothing in
`transpositionValues` even when the attach primitive also reported a
transposition; otherwise a transposition hit appends the canonical child
node's current value to `transpositionValues` and yields
`NODE_TRANSPOSITION`; otherwise the result is `NODE_NEW_NODE` and the caller
writes the leaf's input planes at offset
`newNodes.size() * nbInputValues`, bumps its game phase in `phaseCountMap`,
and appends its side-to-move to `newNodeSideToMove`. -/
theorem add_new_node_to_tree_c3 (newNode : AttachedNode) (transposition : Bool)
    (nbInputValues phase stm : Nat) (s : WorkerState) :
    (newNode.is_terminal = true →
      add_new_node_to_tree newNode transposition s = (.NODE_TERMINAL, s)) ∧
    (newNode.is_terminal = false → transposition = true →
      add_new_node_to_tree newNode transposition s =
        (.NODE_TRANSPOSITION,
          { s with transpositionValues := s.transpositionValues ++ [newNode.get_value] })) ∧
    (newNode.is_terminal = false → transposition = false →
      add_new_node_to_tree newNode transposition s = (.NODE_NEW_NODE, s) ∧
      (prepare_new_node_for_nn nbInputValues phase stm s).inputPlaneWrites =
        s.inputPlaneWrites ++ [s.newNodes.length * nbInputValues] ∧
      (prepare_new_node_for_nn nbInputValues phase stm s).phaseCountMap =
        phase_count_bump s.phaseCountMap phase ∧
      (prepare_new_node_for_nn nbInputValues phase stm s).newNodeSideToMove =
        s.newNodeSideToMove ++ [stm]) := by
  refine ⟨?_, ?_, ?_⟩
  · intro h1
    simp [add_new_node_to_tree, h1]
  · intro h1 h2
    simp [add_new_node_to_tree, h1, h2]
  · intro h1 h2
    exact ⟨by simp [add_new_node_to_tree, h1, h2], rfl, rfl, rfl⟩

/-- Witness for C3 at a concrete input: a terminal attached node that the
attach primitive also reported as a transposition still yields
`NODE_TERMINAL` with `transpositionValues` untouched. -/
theorem add_new_node_to_tree_c3_witness :
    add_new_node_to_tree { is_terminal := true, get_value := 1 } true WorkerState.init =
      (.NODE_TERMINAL, WorkerState.init) :=
  (add_new_node_to_tree_c3 { is_terminal := true, get_value := 1 } true 34 0 0
    WorkerState.init).1 rfl

/-- Number of leaves already dispatched in this batch, over the four
mutually exclusive destinations. -/
def staged_leaf_count (s : WorkerState) : Nat :=
  s.terminalBackups.length + s.collisionTrajectories.length +
    s.transpositionTrajectories.length + s.newNodes.length

theorem minibatch_guard_true_iff (batchSize terminalNodeCache : Nat)
    (s : WorkerState) (t : Nat) :
    minibatch_guard batchSize terminalNodeCache s t = true ↔
      (s.newNodes.length ≠ batchSize ∧ s.collisionTrajectories.length ≠ batchSize ∧
       s.transpositionValues.length ≠ 2 * batchSize ∧ t < terminalNodeCache) := by
  simp [minibatch_guard, and_assoc]

theorem run_leaf_lengths (nbInputValues : Nat) (r : LeafResult) (s : WorkerState) :
    (run_leaf nbInputValues r s).newNodes.length =
      s.newNodes.length + (if r.ty = .NODE_NEW_NODE then 1 else 0) ∧
    (run_leaf nbInputValues r s).collisionTrajectories.length =
      s.collisionTrajectories.length + (if r.ty = .NODE_COLLISION then 1 else 0) ∧
    (run_leaf nbInputValues r s).transpositionValues.length =
      s.transpositionValues.length + (if r.ty = .NODE_TRANSPOSITION then 1 else 0) ∧
    (run_leaf nbInputValues r s).transpositionTrajectories.length =
      s.transpositionTrajectories.length + (if r.ty = .NODE_TRANSPOSITION then 1 else 0) ∧
    (run_leaf nbInputValues r s).terminalBackups.length =
      s.terminalBackups.length + (if r.ty = .NODE_TERMINAL then 1 else 0) := by
  cases hty : r.ty <;>
    simp [run_leaf, dispatch_leaf, record_depth, get_new_child_effects,
      prepare_new_node_for_nn, hty]

theorem create_mini_batch_from_bounds (batchSize terminalNodeCache nbInputValues : Nat) :
    ∀ (leaves : List LeafResult) (s : WorkerState) (t : Nat),
      s.newNodes.length ≤ batchSize → s.collisionTrajectories.length ≤ batchSize →
      s.transpositionValues.length ≤ 2 * batchSize → t ≤ terminalNodeCache →
      (create_mini_batch_from batchSize terminalNodeCache nbInputValues leaves s t).1.newNodes.length
          ≤ batchSize ∧
      (create_mini_batch_from batchSize terminalNodeCache nbInputValues leaves s t).1.collisionTrajectories.length
          ≤ batchSize ∧
      (create_mini_batch_from batchSize terminalNodeCache nbInputValues leaves s t).1.transpositionValues.length
          ≤ 2 * batchSize ∧
      (create_mini_batch_from batchSize terminalNodeCache nbInputValues leaves s t).2.1
          ≤ terminalNodeCache ∧
      ((create_mini_batch_from batchSize terminalNodeCache nbInputValues leaves s t).2.2 ≠ [] →
        minibatch_guard batchSize terminalNodeCache
          (create_mini_batch_from batchSize terminalNodeCache nbInputValues leaves s t).1
          (create_mini_batch_from batchSize terminalNodeCache nbInputValues leaves s t).2.1 = false) := by
  intro leaves
  induction leaves with
  | nil =>
    intro s t h1 h2 h3 h4
    exact ⟨h1, h2, h3, h4, fun h => absurd rfl h⟩
  | cons r rest ih =>
    intro s t h1 h2 h3 h4
    by_cases hg : minibatch_guard batchSize terminalNodeCache s t = true
    · obtain ⟨g1, g2, g3, g4⟩ := (minibatch_guard_true_iff batchSize terminalNodeCache s t).mp hg
      obtain ⟨l1, l2, l3, _, _⟩ := run_leaf_lengths nbInputValues r s
      simp only [create_mini_batch_from, hg, if_true]
      apply ih
      · rw [l1]; split <;> omega
      · rw [l2]; split <;> omega
      · rw [l3]; split <;> omega
      · unfold leaf_terminal_increment; split <;> omega
    · simp only [create_mini_batch_from]
      rw [if_neg hg]
      exact ⟨h1, h2, h3, h4, fun _ => Bool.eq_false_iff.mpr hg⟩

/-- Claim C2: the `create_mini_batch` assembly loop keeps selecting leaves
while none of the four capacity conditions holds and stops exactly when one
first does (`newNodes` holds `batchSize` elements, `collisionTrajectories`
holds `batchSize` elements, `transpositionValues` holds `2 * batchSize`
elements, or the terminal counter has reached `terminalNodeCache`); each
selected leaf is dispatched to exactly one of immediate terminal backup,
`collisionTrajectories`, `transpositionTrajectories`, or `newNodes` with its
trajectory in `newTrajectories`; and from an empty state the four limits are
never exceeded. -/
theorem create_mini_batch_c2 (batchSize terminalNodeCache nbInputValues : Nat) :
    (∀ (s : WorkerState) (t : Nat),
      minibatch_guard batchSize terminalNodeCache s t = true ↔
        (s.newNodes.length ≠ batchSize ∧ s.collisionTrajectories.length ≠ batchSize ∧
         s.transpositionValues.length ≠ 2 * batchSize ∧ t < terminalNodeCache)) ∧
    (∀ (r : LeafResult) (rest : List LeafResult) (s : WorkerState) (t : Nat),
      minibatch_guard batchSize terminalNodeCache s t = true →
      create_mini_batch_from batchSize terminalNodeCache nbInputValues (r :: rest) s t =
        create_mini_batch_from batchSize terminalNodeCache nbInputValues rest
          (run_leaf nbInputValues r s) (t + leaf_terminal_increment r)) ∧
    (∀ (r : LeafResult) (rest : List LeafResult) (s : WorkerState) (t : Nat),
      minibatch_guard batchSize terminalNodeCache s t = false →
      create_mini_batch_from batchSize terminalNodeCache nbInputValues (r :: rest) s t =
        (s, t, r :: rest)) ∧
    (∀ (r : LeafResult) (s : WorkerState),
      staged_leaf_count (run_leaf nbInputValues r s) = staged_leaf_count s + 1) ∧
    (∀ (r : LeafResult) (s : WorkerState), r.ty = .NODE_TERMINAL →
      (run_leaf nbInputValues r s).terminalBackups = s.terminalBackups ++ [r.value] ∧
      (run_leaf nbInputValues r s).collisionTrajectories = s.collisionTrajectories ∧
      (run_leaf nbInputValues r s).transpositionTrajectories = s.transpositionTrajectories ∧
      (run_leaf nbInputValues r s).newNodes = s.newNodes) ∧
    (∀ (r : LeafResult) (s : WorkerState), r.ty = .NODE_COLLISION →
      (run_leaf nbInputValues r s).collisionTrajectories = s.collisionTrajectories ++ [r.traj] ∧
      (run_leaf nbInputValues r s).terminalBackups = s.terminalBackups ∧
      (run_leaf nbInputValues r s).transpositionTrajectories = s.transpositionTrajectories ∧
      (run_leaf nbInputValues r s).newNodes = s.newNodes) ∧
    (∀ (r : LeafResult) (s : WorkerState), r.ty = .NODE_TRANSPOSITION →
      (run_leaf nbInputValues r s).transpositionTrajectories =
        s.transpositionTrajectories ++ [r.traj] ∧
      (run_leaf nbInputValues r s).terminalBackups = s.terminalBackups ∧
      (run_leaf nbInputValues r s).collisionTrajectories = s.collisionTrajectories ∧
      (run_leaf nbInputValues r s).newNodes = s.newNodes) ∧
    (∀ (r : LeafResult) (s : WorkerState), r.ty = .NODE_NEW_NODE →
      (run_leaf nbInputValues r s).newNodes = s.newNodes ++ [r.value] ∧
      (run_leaf nbInputValues r s).newTrajectories = s.newTrajectories ++ [r.traj] ∧
      (run_leaf nbInputValues r s).terminalBackups = s.terminalBackups ∧
      (run_leaf nbInputValues r s).collisionTrajectories = s.collisionTrajectories ∧
      (run_leaf nbInputValues r s).transpositionTrajectories = s.transpositionTrajectories) ∧
    (∀ (leaves : List LeafResult),
      (create_mini_batch batchSize terminalNodeCache nbInputValues leaves
          WorkerState.init).newNodes.length ≤ batchSize ∧
      (create_mini_batch batchSize terminalNodeCache nbInputValues leaves
          WorkerState.init).collisionTrajectories.length ≤ batchSize ∧
      (create_mini_batch batchSize terminalNodeCache nbInputValues leaves
          WorkerState.init).transpositionValues.length ≤ 2 * batchSize ∧
      ((create_mini_batch_from batchSize terminalNodeCache nbInputValues leaves
          WorkerState.init 0).2.2 ≠ [] →
        minibatch_guard batchSize terminalNodeCache
          (create_mini_batch_from batchSize terminalNodeCache nbInputValues leaves
            WorkerState.init 0).1
          (create_mini_batch_from batchSize terminalNodeCache nbInputValues leaves
            WorkerState.init 0).2.1 = false)) := by
  refine ⟨minibatch_guard_true_iff batchSize terminalNodeCache, ?_, ?_, ?_, ?_, ?_, ?_, ?_, ?_⟩
  · intro r rest s t hg
    simp only [create_mini_batch_from, hg, if_true]
  · intro r rest s t hg
    simp only [create_mini_batch_from, hg, if_false, Bool.false_eq_true]
  · intro r s
    cases hty : r.ty <;>
      simp [staged_leaf_count, run_leaf, dispatch_leaf, record_depth,
        get_new_child_effects, prepare_new_node_for_nn, hty] <;> omega
  · intro r s hty
    simp [run_leaf, dispatch_leaf, record_depth, get_new_child_effects, hty]
  · intro r s hty
    simp [run_leaf, dispatch_leaf, record_depth, get_new_child_effects, hty]
  · intro r s hty
    simp [run_leaf, dispatch_leaf, record_depth, get_new_child_effects, hty]
  · intro r s hty
    simp [run_leaf, dispatch_leaf, record_depth, get_new_child_effects,
      prepare_new_node_for_nn, hty]
  · intro leaves
    have hb := create_mini_batch_from_bounds batchSize terminalNodeCache nbInputValues
      leaves WorkerState.init 0 (by simp [WorkerState.init]) (by simp [WorkerState.init])
      (by simp [WorkerState.init]) (Nat.zero_le _)
    exact ⟨hb.1, hb.2.1, hb.2.2.1, hb.2.2.2.2⟩

/-- A terminal selection outcome used by the C2 witness. -/
def c2WitnessLeaf : LeafResult :=
  { ty := .NODE_TERMINAL, depth := 2, value := 1, phase := 0, stm := 0, traj := [5] }

/-- Witness for C2 at a concrete input: from the empty state with
`batchSize = 1`, `terminalNodeCache = 2`, the guard holds, so the loop
consumes the terminal leaf and increments the terminal counter. -/
theorem create_mini_batch_c2_witness :
    minibatch_guard 1 2 WorkerState.init 0 = true ∧
    create_mini_batch_from 1 2 34 [c2WitnessLeaf] WorkerState.init 0 =
      create_mini_batch_from 1 2 34 [] (run_leaf 34 c2WitnessLeaf WorkerState.init)
        (0 + leaf_terminal_increment c2WitnessLeaf) :=
  ⟨by decide, (create_mini_batch_c2 1 2 34).2.1 c2WitnessLeaf [] WorkerState.init 0 (by decide)⟩

theorem run_leaf_phaseCountMap_of_ne (nbInputValues : Nat) (r : LeafResult)
    (s : WorkerState) (h : r.ty ≠ .NODE_NEW_NODE) :
    (run_leaf nbInputValues r s).phaseCountMap = s.phaseCountMap := by
  cases hty : r.ty <;>
    simp [run_leaf, dispatch_leaf, record_depth, get_new_child_effects, hty] at h ⊢

theorem create_mini_batch_from_newNodes_mono (batchSize terminalNodeCache nbInputValues : Nat) :
    ∀ (leaves : List LeafResult) (s : WorkerState) (t : Nat),
      s.newNodes.length ≤
        (create_mini_batch_from batchSize terminalNodeCache nbInputValues leaves s t).1.newNodes.length := by
  intro leaves
  induction leaves with
  | nil => intro s t; exact Nat.le_refl _
  | cons r rest ih =>
    intro s t
    by_cases hg : minibatch_guard batchSize terminalNodeCache s t = true
    · simp only [create_mini_batch_from, hg, if_true]
      refine Nat.le_trans ?_ (ih (run_leaf nbInputValues r s) (t + leaf_terminal_increment r))
      have hl := (run_leaf_lengths nbInputValues r s).1
      rw [hl]
      split <;> omega
    · simp only [create_mini_batch_from]
      rw [if_neg hg]

theorem create_mini_batch_from_phase (batchSize terminalNodeCache nbInputValues : Nat) :
    ∀ (leaves : List LeafResult) (s : WorkerState) (t : Nat),
      (create_mini_batch_from batchSize terminalNodeCache nbInputValues leaves s t).1.phaseCountMap
          = s.phaseCountMap ∨
      (create_mini_batch_from batchSize terminalNodeCache nbInputValues leaves s t).1.newNodes
          ≠ [] := by
  intro leaves
  induction leaves with
  | nil => intro s t; exact Or.inl rfl
  | cons r rest ih =>
    intro s t
    by_cases hg : minibatch_guard batchSize terminalNodeCache s t = true
    · simp only [create_mini_batch_from, hg, if_true]
      by_cases hty : r.ty = .NODE_NEW_NODE
      · right
        have h1 : (run_leaf nbInputValues r s).newNodes = s.newNodes ++ [r.value] := by
          simp [run_leaf, dispatch_leaf, record_depth, get_new_child_effects,
            prepare_new_node_for_nn, hty]
        have h2 := create_mini_batch_from_newNodes_mono batchSize terminalNodeCache
          nbInputValues rest (run_leaf nbInputValues r s) (t + leaf_terminal_increment r)
        rw [h1] at h2
        simp only [List.length_append, List.length_cons, List.length_nil] at h2
        intro hnil
        rw [hnil] at h2
        simp at h2
      · rcases ih (run_leaf nbInputValues r s) (t + leaf_terminal_increment r) with hmap | hnn
        · left
          rw [hmap]
          exact run_leaf_phaseCountMap_of_ne nbInputValues r s hty
        · right; exact hnn
    · simp only [create_mini_batch_from]
      rw [if_neg hg]
      exact Or.inl rfl

/-- Counterexample input for C4: a single new leaf (phase `0`). -/
def c4CexLeaf : LeafResult :=
  { ty := .NODE_NEW_NODE, depth := 1, value := 0, phase := 0, stm := 0, traj := [0] }

/-- Counterexample to claim C4 as stated: with a single configured network
(`numNets = 1`), one iteration that stages a new node leaves
`phaseCountMap` non-empty after the backup phase, because
`select_nn_index()` returns `0` before its `phaseCountMap.clear()` line when
`nets.size() == 1`. -/
theorem thread_iteration_c4_counterexample :
    (thread_iteration 1 (fun p => p) 8 16 34 [c4CexLeaf] WorkerState.init).phaseCountMap ≠ [] := by
  decide

/-- Claim C4 amended: after every worker iteration, the staging containers
`newNodes`, `newNodeSideToMove`, `newTrajectories`, `transpositionValues`,
`transpositionTrajectories` and `collisionTrajectories` are empty again; the
`phaseCountMap` histogram is also empty after the iteration when more than
one network is configured (given it was empty when the iteration began,
which holds inductively), but with a single configured network
`select_nn_index` returns before its clearing line and the histogram is not
cleared. -/
theorem thread_iteration_c4_amended (numNets : Nat) (phaseToNetsIndex : Nat → Nat)
    (batchSize terminalNodeCache nbInputValues : Nat)
    (leaves : List LeafResult) (s : WorkerState) :
    (thread_iteration numNets phaseToNetsIndex batchSize terminalNodeCache nbInputValues
        leaves s).newNodes = [] ∧
    (thread_iteration numNets phaseToNetsIndex batchSize terminalNodeCache nbInputValues
        leaves s).newNodeSideToMove = [] ∧
    (thread_iteration numNets phaseToNetsIndex batchSize terminalNodeCache nbInputValues
        leaves s).newTrajectories = [] ∧
    (thread_iteration numNets phaseToNetsIndex batchSize terminalNodeCache nbInputValues
        leaves s).transpositionValues = [] ∧
    (thread_iteration numNets phaseToNetsIndex batchSize terminalNodeCache nbInputValues
        leaves s).transpositionTrajectories = [] ∧
    (thread_iteration numNets phaseToNetsIndex batchSize terminalNodeCache nbInputValues
        leaves s).collisionTrajectories = [] ∧
    (numNets ≠ 1 → s.phaseCountMap = [] →
      (thread_iteration numNets phaseToNetsIndex batchSize terminalNodeCache nbInputValues
        leaves s).phaseCountMap = []) := by
  refine ⟨rfl, rfl, rfl, rfl, rfl, rfl, ?_⟩
  intro hn hmap
  simp only [thread_iteration, backup_collisions, backup_value_outputs]
  by_cases hlen : (create_mini_batch batchSize terminalNodeCache nbInputValues leaves
      s).newNodes.length ≠ 0
  · rw [if_pos hlen]
    simp [select_nn_index, hn]
  · rw [if_neg hlen]
    rcases create_mini_batch_from_phase batchSize terminalNodeCache nbInputValues
        leaves s 0 with hph | hnn
    · rw [show (create_mini_batch batchSize terminalNodeCache nbInputValues leaves s) =
          (create_mini_batch_from batchSize terminalNodeCache nbInputValues leaves s 0).1
        from rfl, hph, hmap]
    · exact absurd (List.length_eq_zero.mp (Nat.eq_zero_of_not_pos
        (fun hpos => hlen (Nat.pos_iff_ne_zero.mp hpos)))) hnn

/-- Witness for the amended C4: with two networks and an empty starting
histogram, every container including `phaseCountMap` is empty after the
iteration that stages one new node. -/
theorem thread_iteration_c4_witness :
    (thread_iteration 2 (fun p => p) 8 16 34 [c4CexLeaf] WorkerState.init).newNodes = [] ∧
    (thread_iteration 2 (fun p => p) 8 16 34 [c4CexLeaf] WorkerState.init).phaseCountMap = [] :=
  ⟨(thread_iteration_c4_amended 2 (fun p => p) 8 16 34 [c4CexLeaf] WorkerState.init).1,
   (thread_iteration_c4_amended 2 (fun p => p) 8 16 34 [c4CexLeaf]
      WorkerState.init).2.2.2.2.2.2 (by decide) rfl⟩

theorem random_depth_pow_exists (y : ℚ) (hy : 0 < y) :
    ∃ d : Nat, 1 ≤ 2 ^ (d + 1) * y := by
  obtain ⟨n, hn⟩ := pow_unbounded_of_one_lt (y⁻¹) (by norm_num : (1:ℚ) < 2)
  refine ⟨n, ?_⟩
  have h2n : (0:ℚ) < 2 ^ n := by positivity
  have hstep : y⁻¹ * y < 2 ^ (n + 1) * y := by
    apply mul_lt_mul_of_pos_right _ hy
    calc y⁻¹ < 2 ^ n := hn
      _ ≤ 2 ^ (n + 1) := by
          rw [pow_succ]
          nlinarith [h2n]
  rw [inv_mul_cancel₀ (ne_of_gt hy)] at hstep
  exact le_of_lt hstep

/-- Free function `get_random_depth()`:
`const int randInt = rand() % 100 + 1;`
`return std::ceil(-std::log2(1 - randInt / 100.0) - 1);`

The transcendental computation is embedded exactly over the reals.  For
`randInt ∈ [1, 99]` the argument `y = 1 - randInt/100` lies in `(0, 1)` and
the returned depth `⌈-log2 y - 1⌉` is characterised as the least natural
number `d` with `1 ≤ 2 ^ (d + 1) * y`; this keeps the definition executable
over `ℚ`, and `get_random_depth_c8` proves it equal to the ceiling formula of
the source.  For `randInt = 100`, `randInt / 100.0` is exactly `1.0`,
`std::log2(0.0)` is `-inf`, and `std::ceil(-(-inf) - 1) = +inf`; converting
`+inf` to the `size_t` return type is undefined behaviour, modelled as
`none`. -/
def get_random_depth (randInt : Nat) : Option Nat :=
  if h : (0:ℚ) < 1 - (randInt : ℚ) / 100 then
    some (Nat.find (random_depth_pow_exists (1 - (randInt : ℚ) / 100) h))
  else none

/-- Claim C8 (the code is wrong at the `U = 1.00` bucket): for the buckets
`randInt ∈ [1, 99]` the returned depth exists and equals the specified
`⌈-log2(1 - randInt/100) - 1⌉`; at `randInt = 100` — drawn with probability
`1/100` — the C++ expression is `ceil(-log2(0) - 1) = +inf`, whose conversion
to `size_t` is undefined behaviour, so no finite depth is returned there and
the claim's "including U = 1.00" part fails on the code. -/
theorem get_random_depth_c8 :
    get_random_depth 100 = none ∧
    (∀ randInt : Nat, 1 ≤ randInt → randInt ≤ 99 →
      ∃ d : Nat, get_random_depth randInt = some d ∧
        (d : ℤ) = ⌈-Real.logb 2 (1 - (randInt : ℝ) / 100) - 1⌉) := by
  constructor
  · rw [get_random_depth, dif_neg (by norm_num)]
  · intro k hk1 hk99
    have hklt : (k:ℚ) < 100 := by exact_mod_cast (by omega : k < 100)
    have hyQ : (0:ℚ) < 1 - (k:ℚ) / 100 := by
      have hd1 : (k:ℚ) / 100 < 1 := (div_lt_one (by norm_num)).mpr hklt
      linarith
    have hex := random_depth_pow_exists (1 - (k:ℚ) / 100) hyQ
    refine ⟨Nat.find hex, ?_, ?_⟩
    · rw [get_random_depth, dif_pos hyQ]
    · have hfind : (1:ℚ) ≤ 2 ^ (Nat.find hex + 1) * (1 - (k:ℚ) / 100) := Nat.find_spec hex
      have hmin : ∀ m, m < Nat.find hex → ¬ (1:ℚ) ≤ 2 ^ (m + 1) * (1 - (k:ℚ) / 100) :=
        fun m hm => Nat.find_min hex hm
      set d : ℕ := Nat.find hex with hddef
      have hk1Q : (1:ℚ) ≤ (k:ℚ) := by exact_mod_cast hk1
      have hy1Q : 1 - (k:ℚ) / 100 < 1 := by
        have : (0:ℚ) < (k:ℚ) / 100 := by positivity
        linarith
      have hcast : ((1 - (k:ℚ) / 100 : ℚ) : ℝ) = 1 - (k:ℝ) / 100 := by push_cast; ring
      have hy0R : (0:ℝ) < 1 - (k:ℝ) / 100 := by rw [← hcast]; exact_mod_cast hyQ
      have hy1R : 1 - (k:ℝ) / 100 < 1 := by rw [← hcast]; exact_mod_cast hy1Q
      have hfindR : (1:ℝ) ≤ 2 ^ (d + 1) * (1 - (k:ℝ) / 100) := by
        rw [← hcast]; exact_mod_cast hfind
      have hb2 : (1:ℝ) < 2 := one_lt_two
      have hA : -((d:ℝ) + 1) ≤ Real.logb 2 (1 - (k:ℝ) / 100) := by
        rw [Real.le_logb_iff_rpow_le hb2 hy0R]
        have he : -((d:ℝ) + 1) = -(((d + 1 : ℕ)) : ℝ) := by push_cast; ring
        rw [he, Real.rpow_neg (by norm_num : (0:ℝ) ≤ 2), Real.rpow_natCast]
        rw [← one_div, div_le_iff₀ (by positivity : (0:ℝ) < 2 ^ (d + 1))]
        linarith [hfindR, mul_comm (1 - (k:ℝ) / 100) ((2:ℝ) ^ (d + 1))]
      have hB : Real.logb 2 (1 - (k:ℝ) / 100) < -(d:ℝ) := by
        rw [Real.logb_lt_iff_lt_rpow hb2 hy0R]
        rw [Real.rpow_neg (by norm_num : (0:ℝ) ≤ 2), Real.rpow_natCast]
        rcases Nat.eq_zero_or_pos d with hd0 | hdpos
        · rw [hd0]
          simpa using hy1R
        · have hm := hmin (d - 1) (by omega)
          rw [(by omega : d - 1 + 1 = d)] at hm
          push_neg at hm
          have hmR : 2 ^ d * (1 - (k:ℝ) / 100) < 1 := by
            rw [← hcast]; exact_mod_cast hm
          rw [← one_div, lt_div_iff₀ (by positivity : (0:ℝ) < 2 ^ d)]
          linarith [hmR, mul_comm (1 - (k:ℝ) / 100) ((2:ℝ) ^ d)]
      have hceil : ⌈-Real.logb 2 (1 - (k:ℝ) / 100) - 1⌉ = (d:ℤ) := by
        rw [Int.ceil_eq_iff]
        constructor
        · push_cast
          linarith [hB]
        · push_cast
          linarith [hA]
      exact hceil.symm

/-- Witness for C8 at concrete buckets: at `randInt = 75` the hypotheses
hold and the returned depth is defined and matches the formula; evaluating
the embedded definition gives depth `1` there. -/
theorem get_random_depth_c8_witness :
    (1 ≤ 75 ∧ 75 ≤ 99 ∧
      ∃ d : Nat, get_random_depth 75 = some d ∧
        (d : ℤ) = ⌈-Real.logb 2 (1 - (75 : ℝ) / 100) - 1⌉) ∧
    get_random_depth 75 = some 1 := by
  refine ⟨⟨by norm_num, by norm_num,
    get_random_depth_c8.2 75 (by norm_num) (by norm_num)⟩, ?_⟩
  rw [get_random_depth,
    dif_pos (show (0:ℚ) < 1 - ((75:ℕ):ℚ) / 100 by norm_num)]
  norm_num [Nat.find_eq_iff, Nat.lt_one_iff]
